import Mathlib

set_option maxRecDepth 10000

/-!
# Shallow embedding of gvSelect (`gvSelect/gvSelect.py`)

A reader/writer for gadgetviewer selection files.  Bytes are modelled as
`Nat` values below 256, and the 32-bit signed integers of the file format as
`Int` with explicit wrapping modulo `2 ^ 32` where numpy/struct would wrap.
The `fortranfile` record framer used by `_parse_file` is an external
dependency that is not part of the repository's sources; its `readRecord`
and `readInts` operations are modelled from the spec (RecordFramer, §4.1).
Python exceptions are modelled with `Except`; exception kinds are collapsed
into the `Err` taxonomy of the spec (§7).
-/

/-- The error taxonomy: `unexpectedEOF`/`framing` for record-framing failures,
`invalidName` for the `ValueError` raised by the name setter, `indexError`
for Python `IndexError` on out-of-range list indexing. -/
inductive Err where
  | unexpectedEOF
  | framing
  | invalidName
  | indexError
deriving Repr, DecidableEq

/-- Constant `_NUM_SELECTIONS = 6`. -/
def _NUM_SELECTIONS : Nat := 6

/-- Constant `_NUM_PTYPES = 6`. -/
def _NUM_PTYPES : Nat := 6

/-- Constant `_ID_SIZE = 4` (itemsize of the int32 dtype). -/
def _ID_SIZE : Nat := 4

/-- Constant `_NAME_LENGTH = 500`. -/
def _NAME_LENGTH : Nat := 500

/-- The int32 value numpy stores for an arbitrary integer (wrap modulo
`2 ^ 32` into the signed range). -/
def toInt32 (i : Int) : Int :=
  let n := i % 2 ^ 32
  if n < 2 ^ 31 then n else n - 2 ^ 32

/-- Little-endian 4-byte encoding of an integer, as `struct.pack("i", i)`
or one element of an int32 numpy array's byte string. -/
def int32le (i : Int) : List Nat :=
  let n := (i % 2 ^ 32).toNat
  [n % 256, n / 256 % 256, n / 2 ^ 16 % 256, n / 2 ^ 24 % 256]

/-- Unsigned little-endian value of 4 bytes. -/
def leNat : List Nat → Nat
  | [b0, b1, b2, b3] => b0 + 256 * b1 + 2 ^ 16 * b2 + 2 ^ 24 * b3
  | _ => 0

/-- Signed little-endian int32 value of 4 bytes. -/
def leInt32 (bs : List Nat) : Int :=
  let n := leNat bs
  if n < 2 ^ 31 then (n : Int) else (n : Int) - 2 ^ 32

/-- Read exactly `n` bytes from the stream, returning them and the rest;
`none` when fewer than `n` bytes remain (a short read). -/
def takeExact (n : Nat) (bs : List Nat) : Option (List Nat × List Nat) :=
  if n ≤ bs.length then some (bs.take n, bs.drop n) else none

/-- Modelled from the spec: `fortranfile.FortranFile.readRecord` (RecordFramer
§4.1), a dependency not present in the repository sources.  Reads a 4-byte
length `L`, `L` bytes of payload and a trailing 4-byte length which must
equal `L`; fails with `unexpectedEOF` on a short read and with `framing`
when the two length fields disagree (a negative leading length can never
match the byte count actually read, so it is a framing failure too). -/
def readRecord (bs : List Nat) : Except Err (List Nat × List Nat) :=
  match takeExact 4 bs with
  | none => .error .unexpectedEOF
  | some (lb, bs1) =>
    let L := leInt32 lb
    if 0 ≤ L then
      match takeExact L.toNat bs1 with
      | none => .error .unexpectedEOF
      | some (p, bs2) =>
        match takeExact 4 bs2 with
        | none => .error .unexpectedEOF
        | some (tb, bs3) =>
          if leInt32 tb = L then .ok (p, bs3) else .error .framing
    else .error .framing

/-- Reinterpret a byte string as consecutive little-endian int32 values;
`none` when the length is not a multiple of 4. -/
def toInts : List Nat → Option (List Int)
  | [] => some []
  | b0 :: b1 :: b2 :: b3 :: rest =>
    (toInts rest).map (fun l => leInt32 [b0, b1, b2, b3] :: l)
  | _ => none

/-- Modelled from the spec: `fortranfile.FortranFile.readInts` (RecordFramer
§4.1): `readRecord`, then reinterpret the payload as int32 values, failing
when the payload length is not a multiple of 4. -/
def readInts (bs : List Nat) : Except Err (List Int × List Nat) :=
  match readRecord bs with
  | .error e => .error e
  | .ok (p, rest) =>
    match toInts p with
    | none => .error .framing
    | some l => .ok (l, rest)

/-- Python list indexing semantics for a list of length `len`: indices
`0 ≤ i < len` address slot `i`, negative indices `-len ≤ i < 0` address
slot `len + i`, anything else raises `IndexError` (`none`). -/
def pyIdx (len : Nat) (i : Int) : Option Nat :=
  if 0 ≤ i ∧ i < (len : Int) then some i.toNat
  else if -(len : Int) ≤ i ∧ i < 0 then some ((len : Int) + i).toNat
  else none

/-- A single gadgetviewer selection: the stored 500-byte `_name` and the
6 per-particle-type id arrays (`ids` always holds `_NUM_PTYPES` slots). -/
structure GVSelection where
  name : List Nat
  ids : List (List Int)
deriving Repr, DecidableEq

instance : Inhabited GVSelection := ⟨⟨[], []⟩⟩

/-- The `name` property setter: validate that every byte is ASCII (else the
`ValueError` is raised before `_name` is assigned, so the selection is
returned unchanged alongside the error), truncate to 500 characters and
right-pad with spaces (byte 32) to exactly 500 bytes. -/
def GVSelection.name_set (s : GVSelection) (nm : List Nat) :
    GVSelection × Option Err :=
  if nm.all (fun b => b < 128) then
    let t := nm.take _NAME_LENGTH
    ({ s with name := t ++ List.replicate (_NAME_LENGTH - t.length) 32 }, none)
  else (s, some .invalidName)

/-- Constructor `GVSelection.__init__`: assigns `name` through the validating setter
(so construction fails on a non-ASCII name) and creates 6 empty id arrays. -/
def GVSelection.mk0 (nm : List Nat) : Except Err GVSelection :=
  match GVSelection.name_set ⟨[], List.replicate _NUM_PTYPES []⟩ nm with
  | (s, none) => .ok s
  | (_, some e) => .error e

/-- Method `GVSelection.set_ids`: `self.ids[ptype] = np.asarray(ids, dtype=int32)`,
with Python list-index semantics on `ptype` and int32 wrapping of the
values. -/
def GVSelection.set_ids (s : GVSelection) (ptype : Int) (ids : List Int) :
    Except Err GVSelection :=
  match pyIdx s.ids.length ptype with
  | none => .error .indexError
  | some k => .ok { s with ids := s.ids.set k (ids.map toInt32) }

/-- Method `GVSelection.get_ids`: `return self.ids[ptype]`, with Python list-index
semantics on `ptype`. -/
def GVSelection.get_ids (s : GVSelection) (ptype : Int) :
    Except Err (List Int) :=
  match pyIdx s.ids.length ptype with
  | none => .error .indexError
  | some k => .ok (s.ids.getD k [])

/-- The per-category part of `GVSelection.make_output`'s non-empty branch:
`[4, 0, 4]` for an empty array, else
`[_ID_SIZE, n, _ID_SIZE, nbytes] ++ ids ++ [nbytes]`. -/
def catOutput (idarray : List Int) : List Int :=
  if idarray.length = 0 then [4, 0, 4]
  else
    [(_ID_SIZE : Int), (idarray.length : Int), (_ID_SIZE : Int),
      ((_ID_SIZE * idarray.length : Nat) : Int)]
    ++ idarray ++ [((_ID_SIZE * idarray.length : Nat) : Int)]

/-- Method `GVSelection.make_output`: the selection's payload block as a list of
int32 values (the final `np.array(ret_array, dtype=int32)` wraps every
entry to int32).  `ids` always holds 6 slots, so `max(len(a) for a in ids)
== 0` is the same as all slots being empty. -/
def GVSelection.make_output (s : GVSelection) : List Int :=
  let raw :=
    if s.ids.all (fun a => a.length = 0) then
      [8, 1, (_NUM_PTYPES : Int), 8]
      ++ (List.replicate _NUM_PTYPES [(_ID_SIZE : Int), 0, (_ID_SIZE : Int)]).flatten
    else
      [8, 0, (_NUM_PTYPES : Int), 8] ++ (s.ids.map catOutput).flatten
  raw.map toInt32

/-- Serialization of a list of int32 values to bytes
(`np.array(·, dtype=int32).tostring()`). -/
def serInts (l : List Int) : List Nat :=
  (l.map int32le).flatten

/-- A length-framed record: payload preceded and followed by its byte length
as an int32. -/
def frameB (p : List Nat) : List Nat :=
  int32le (p.length : Int) ++ p ++ int32le (p.length : Int)

/-- A framed record whose payload is a list of int32 values. -/
def intRecord (l : List Int) : List Nat :=
  frameB (serInts l)

/-- Method `GVSelectFile.write_file`: `struct.pack("iiii", 4, 6, 4, 3000)`, the six
500-byte names, `struct.pack("i", 3000)`, then the concatenated
`make_output` blocks serialized as int32 bytes.  The Python code indexes
`self._selections[i]` for `i` in `0..5`; a file always holds exactly 6
selections. -/
def GVSelectFile.write_file (sels : List GVSelection) : List Nat :=
  int32le (_ID_SIZE : Int) ++ int32le (_NUM_SELECTIONS : Int)
  ++ int32le (_ID_SIZE : Int) ++ int32le ((_NUM_SELECTIONS * _NAME_LENGTH : Nat) : Int)
  ++ ((List.range _NUM_SELECTIONS).map (fun i => (sels.getD i default).name)).flatten
  ++ int32le ((_NUM_SELECTIONS * _NAME_LENGTH : Nat) : Int)
  ++ serInts (((List.range _NUM_SELECTIONS).map
        (fun i => (sels.getD i default).make_output)).flatten)

/-- Method `GVSelectFile.get_ids`: `self._selections[selection_id].get_ids(p_type)`,
with Python list-index semantics on both indices. -/
def GVSelectFile.get_ids (sels : List GVSelection) (selection_id p_type : Int) :
    Except Err (List Int) :=
  match pyIdx sels.length selection_id with
  | none => .error .indexError
  | some k => (sels.getD k default).get_ids p_type

/-- Method `GVSelectFile.set_ids`: `self._selections[selection_id].set_ids(p_type,
ids)`; the updated file is returned explicitly (in Python the mutation is
in place). -/
def GVSelectFile.set_ids (sels : List GVSelection) (selection_id p_type : Int)
    (ids : List Int) : Except Err (List GVSelection) :=
  match pyIdx sels.length selection_id with
  | none => .error .indexError
  | some k =>
    match (sels.getD k default).set_ids p_type ids with
    | .error e => .error e
    | .ok s' => .ok (sels.set k s')

/-- One iteration of the inner decode loop of `_parse_file`:
`if fin.readInts()[0] != 0: selection.set_ids(pid, fin.readInts())`.
Indexing `[0]` on an empty numpy array raises `IndexError`. -/
def parseCat (pid : Nat) (sel : GVSelection) (bs : List Nat) :
    Except Err (GVSelection × List Nat) :=
  match readInts bs with
  | .error e => .error e
  | .ok (l, bs1) =>
    match l with
    | [] => .error .indexError
    | x :: _ =>
      if x ≠ 0 then
        match readInts bs1 with
        | .error e => .error e
        | .ok (ids2, bs2) =>
          match sel.set_ids (pid : Int) ids2 with
          | .error e => .error e
          | .ok sel' => .ok (sel', bs2)
      else .ok (sel, bs1)

/-- The inner decode loop of `_parse_file` over a list of particle types. -/
def parseCats : List Nat → GVSelection → List Nat →
    Except Err (GVSelection × List Nat)
  | [], sel, bs => .ok (sel, bs)
  | pid :: rest, sel, bs =>
    match parseCat pid sel bs with
    | .error e => .error e
    | .ok (sel', bs') => parseCats rest sel' bs'

/-- One iteration of the outer decode loop of `_parse_file`: discard one
record (`fin.readRecord()`), then run the category loop for
`pid in xrange(_NUM_PTYPES)`. -/
def parseOneSel (sel : GVSelection) (bs : List Nat) :
    Except Err (GVSelection × List Nat) :=
  match readRecord bs with
  | .error e => .error e
  | .ok (_, bs1) => parseCats (List.range _NUM_PTYPES) sel bs1

/-- The outer decode loop of `_parse_file` over the selection list. -/
def parseSels : List GVSelection → List Nat → Except Err (List GVSelection)
  | [], _ => .ok []
  | sel :: rest, bs =>
    match parseOneSel sel bs with
    | .error e => .error e
    | .ok (sel', bs') =>
      match parseSels rest bs' with
      | .error e => .error e
      | .ok sels' => .ok (sel' :: sels')

/-- The list comprehension `[GVSelection(name) for name in names]`:
construct the selection objects in order, propagating the first
constructor exception. -/
def mkSels : List (List Nat) → Except Err (List GVSelection)
  | [] => .ok []
  | nm :: rest =>
    match GVSelection.mk0 nm with
    | .error e => .error e
    | .ok s =>
      match mkSels rest with
      | .error e => .error e
      | .ok ss => .ok (s :: ss)

/-- Method `GVSelectFile._parse_file`: discard one record, read the name-table
record, cut it into 6 slices of 500 bytes (`all_names[500*i:500*(i+1)]`),
construct the `GVSelection` objects (each name passing through the
validating setter), then run the per-selection decode loop. -/
def GVSelectFile._parse_file (bs : List Nat) : Except Err (List GVSelection) :=
  match readRecord bs with
  | .error e => .error e
  | .ok (_, bs1) =>
    match readRecord bs1 with
    | .error e => .error e
    | .ok (all_names, bs2) =>
      let names := (List.range _NUM_SELECTIONS).map
        (fun i => (all_names.drop (_NAME_LENGTH * i)).take _NAME_LENGTH)
      match mkSels names with
      | .error e => .error e
      | .ok sels => parseSels sels bs2

/-- The byte layout the encoder produces for one category: an empty category
is the marker record `{4, 0, 4}`; a non-empty one is a framed count record
followed by a framed data record. -/
def catBytes (c : List Int) : List Nat :=
  if c = [] then intRecord [0]
  else intRecord [(c.length : Int)] ++ intRecord c

/-- Well-formedness of an in-memory selection as the API produces it: the
stored name is exactly 500 ASCII bytes (the setter invariant), there are
exactly 6 id slots, every id value is in int32 range and every category is
small enough for its byte count to fit an int32. -/
def selWF (s : GVSelection) : Prop :=
  s.name.length = _NAME_LENGTH ∧ (∀ b ∈ s.name, b < 128) ∧
  s.ids.length = _NUM_PTYPES ∧ (∀ c ∈ s.ids, c.length < 2 ^ 29) ∧
  (∀ c ∈ s.ids, ∀ v ∈ c, -(2 : Int) ^ 31 ≤ v ∧ v < 2 ^ 31)

instance (s : GVSelection) : Decidable (selWF s) := by
  unfold selWF
  infer_instance


/-- Sample inputs used by the concrete witnesses. -/
def sampleName : List Nat := 65 :: List.replicate 499 32

def sampleSel1 : GVSelection :=
  ⟨sampleName, [[], [], [10, 20, 30], [], [], []]⟩

def sampleSelE : GVSelection :=
  ⟨List.replicate 500 32, List.replicate 6 []⟩

def sampleFile : List GVSelection :=
  [sampleSel1, sampleSelE, sampleSelE, sampleSelE, sampleSelE, sampleSelE]

/-- A 3000-byte name table whose first byte is non-ASCII. -/
def badTable : List Nat := 200 :: List.replicate 2999 32

/-! ## Arithmetic and framing lemmas -/

theorem emod32_nonneg (i : Int) : 0 ≤ i % 2 ^ 32 :=
  Int.emod_nonneg i (by norm_num)

theorem emod32_lt (i : Int) : i % 2 ^ 32 < 2 ^ 32 :=
  Int.emod_lt_of_pos i (by norm_num)

theorem length_int32le (i : Int) : (int32le i).length = 4 := rfl

theorem leNat_int32le (i : Int) : leNat (int32le i) = (i % 2 ^ 32).toNat := by
  have h0 := emod32_nonneg i
  have h1 := emod32_lt i
  show (i % 2 ^ 32).toNat % 256 + 256 * ((i % 2 ^ 32).toNat / 256 % 256)
      + 2 ^ 16 * ((i % 2 ^ 32).toNat / 2 ^ 16 % 256)
      + 2 ^ 24 * ((i % 2 ^ 32).toNat / 2 ^ 24 % 256) = (i % 2 ^ 32).toNat
  omega

theorem leInt32_int32le (i : Int) : leInt32 (int32le i) = toInt32 i := by
  have h0 := emod32_nonneg i
  simp only [leInt32, leNat_int32le, toInt32]
  split <;> split <;> omega

theorem toInt32_eq_self {i : Int} (h1 : -(2 : Int) ^ 31 ≤ i) (h2 : i < 2 ^ 31) :
    toInt32 i = i := by
  simp only [toInt32]
  split <;> omega

theorem toInt32_natCast (n : Nat) (h : n < 2 ^ 31) : toInt32 (n : Int) = n :=
  toInt32_eq_self (by omega) (by exact_mod_cast h)

theorem int32le_toInt32 (i : Int) : int32le (toInt32 i) = int32le i := by
  have h : toInt32 i % 2 ^ 32 = i % 2 ^ 32 := by
    simp only [toInt32]
    split <;> omega
  simp only [int32le, h]

theorem leInt32_int32le_natCast (n : Nat) (h : n < 2 ^ 31) :
    leInt32 (int32le (n : Int)) = (n : Int) := by
  rw [leInt32_int32le, toInt32_natCast n h]

theorem takeExact_append (n : Nat) (xs rest : List Nat) (h : xs.length = n) :
    takeExact n (xs ++ rest) = some (xs, rest) := by
  subst h
  unfold takeExact
  rw [if_pos (by simp), List.take_left, List.drop_left]

theorem readRecord_frame (p rest : List Nat) (h : p.length < 2 ^ 31) :
    readRecord (frameB p ++ rest) = .ok (p, rest) := by
  have hL : leInt32 (int32le (p.length : Int)) = (p.length : Int) :=
    leInt32_int32le_natCast _ h
  have hshape : frameB p ++ rest
      = int32le (p.length : Int) ++ (p ++ (int32le (p.length : Int) ++ rest)) := by
    simp [frameB, List.append_assoc]
  rw [hshape]
  simp only [readRecord, takeExact_append 4 (int32le (p.length : Int)) _ rfl, hL]
  rw [if_pos (by positivity)]
  rw [show ((p.length : Int)).toNat = p.length from Int.toNat_natCast _]
  simp only [takeExact_append p.length p _ rfl,
    takeExact_append 4 (int32le (p.length : Int)) rest rfl, hL, if_pos rfl]
  simp

theorem serInts_nil : serInts [] = [] := rfl

theorem serInts_cons (x : Int) (xs : List Int) :
    serInts (x :: xs) = int32le x ++ serInts xs := by
  simp [serInts]

theorem serInts_append (a b : List Int) :
    serInts (a ++ b) = serInts a ++ serInts b := by
  simp [serInts]

theorem length_serInts (l : List Int) : (serInts l).length = 4 * l.length := by
  induction l with
  | nil => rfl
  | cons x xs ih => simp [serInts_cons, ih, length_int32le]; ring

theorem toInts_int32le_append (x : Int) (bs : List Nat) :
    toInts (int32le x ++ bs) = (toInts bs).map (fun l => toInt32 x :: l) := by
  obtain ⟨b0, b1, b2, b3, hb⟩ :
      ∃ b0 b1 b2 b3, int32le x = [b0, b1, b2, b3] := ⟨_, _, _, _, rfl⟩
  have hle : leInt32 [b0, b1, b2, b3] = toInt32 x := by
    rw [← hb, leInt32_int32le]
  rw [hb]
  show toInts (b0 :: b1 :: b2 :: b3 :: bs) = _
  rw [toInts, hle]

theorem toInts_serInts (l : List Int) : toInts (serInts l) = some (l.map toInt32) := by
  induction l with
  | nil => rfl
  | cons x xs ih =>
    rw [serInts_cons, toInts_int32le_append, ih, Option.map_some', List.map_cons]

theorem readInts_frame (l : List Int) (rest : List Nat) (h : 4 * l.length < 2 ^ 31) :
    readInts (intRecord l ++ rest) = .ok (l.map toInt32, rest) := by
  have hlen : (serInts l).length < 2 ^ 31 := by rw [length_serInts]; omega
  simp only [readInts, intRecord, readRecord_frame _ _ hlen, toInts_serInts]

theorem serInts_map_toInt32 (l : List Int) : serInts (l.map toInt32) = serInts l := by
  simp only [serInts, List.map_map]
  exact congrArg List.flatten (List.map_congr_left (fun a _ => int32le_toInt32 a))

/-! ## Structure of the encoded per-selection block -/

theorem serInts_catOutput (c : List Int) : serInts (catOutput c) = catBytes c := by
  by_cases hc : c.length = 0
  · have hnil : c = [] := List.length_eq_zero.mp hc
    subst hnil
    rfl
  · rw [catOutput, if_neg hc, catBytes,
      if_neg (fun hnil => hc (by simp [hnil]))]
    have h4 : ((_ID_SIZE * c.length : Nat) : Int) = ((serInts c).length : Int) := by
      rw [length_serInts]; rfl
    simp only [serInts_append, serInts_cons, serInts_nil, intRecord, frameB,
      length_serInts, h4]
    simp [List.append_assoc]
    rfl

theorem serInts_flatten_catOutput (ls : List (List Int)) :
    serInts ((ls.map catOutput).flatten) = (ls.map catBytes).flatten := by
  induction ls with
  | nil => rfl
  | cons c cs ih =>
    simp only [List.map_cons, List.flatten_cons, serInts_append, ih,
      serInts_catOutput]

/-- The byte string the encoder emits for one selection, as framed records:
a leading framed record with body `{flag, 6}` (`flag = 1` when every
category is empty, else `0`), followed by the six category blocks. -/
theorem serInts_make_output (s : GVSelection) :
    serInts s.make_output =
      if s.ids.all (fun a => a.length = 0) then
        frameB (serInts [1, ((_NUM_PTYPES : Nat) : Int)])
          ++ (List.replicate _NUM_PTYPES (intRecord [0])).flatten
      else
        frameB (serInts [0, ((_NUM_PTYPES : Nat) : Int)])
          ++ (s.ids.map catBytes).flatten := by
  simp only [GVSelection.make_output]
  by_cases hA : s.ids.all (fun a => a.length = 0)
  · simp only [if_pos hA, serInts_map_toInt32]
    decide
  · simp only [if_neg hA, serInts_map_toInt32, serInts_append,
      serInts_flatten_catOutput]
    congr 1

/-! ## Decode-side lemmas -/

theorem toInt32_toInt32 (i : Int) : toInt32 (toInt32 i) = toInt32 i := by
  simp only [toInt32]
  split <;> split <;> omega

theorem map_toInt32_eq_self {c : List Int}
    (h : ∀ v ∈ c, -(2 : Int) ^ 31 ≤ v ∧ v < 2 ^ 31) : c.map toInt32 = c := by
  have : c.map toInt32 = c.map id :=
    List.map_congr_left (fun a ha => toInt32_eq_self (h a ha).1 (h a ha).2)
  simpa using this

theorem pyIdx_natCast (len k : Nat) (h : k < len) : pyIdx len (k : Int) = some k := by
  unfold pyIdx
  rw [if_pos ⟨Int.natCast_nonneg k, by exact_mod_cast h⟩, Int.toNat_natCast]

/-- An empty-category marker record `{4, 0, 4}` is consumed as a single
integer record whose first (and only) element is `0`: the category loop
reads nothing further and leaves the selection unchanged. -/
theorem parseCat_empty (pid : Nat) (sel : GVSelection) (rest : List Nat) :
    parseCat pid sel (intRecord [0] ++ rest) = .ok (sel, rest) := by
  have h : readInts (intRecord [0] ++ rest) = .ok (([0] : List Int).map toInt32, rest) :=
    readInts_frame [0] rest (by norm_num)
  have h0 : (([0] : List Int).map toInt32) = [0] := by decide
  rw [h0] at h
  simp [parseCat, h]

/-- A non-empty category contributes a count record followed by a data
record: the loop reads the count, finds it non-zero, reads the data record
and stores it (wrapped to int32) in slot `pid`. -/
theorem parseCat_data (pid : Nat) (sel : GVSelection) (c : List Int)
    (rest : List Nat) (hpid : pid < sel.ids.length) (hne : c ≠ [])
    (hlen : c.length < 2 ^ 29) :
    parseCat pid sel (intRecord [(c.length : Int)] ++ (intRecord c ++ rest))
      = .ok ({ sel with ids := sel.ids.set pid (c.map toInt32) }, rest) := by
  have h1 : readInts (intRecord [(c.length : Int)] ++ (intRecord c ++ rest))
      = .ok (([(c.length : Int)]).map toInt32, intRecord c ++ rest) :=
    readInts_frame _ _ (by norm_num)
  have hcast : (([(c.length : Int)]).map toInt32) = [(c.length : Int)] := by
    simp [toInt32_natCast c.length (by omega)]
  rw [hcast] at h1
  have h2 : readInts (intRecord c ++ rest) = .ok (c.map toInt32, rest) :=
    readInts_frame _ _ (by omega)
  have hne' : ((c.length : Nat) : Int) ≠ 0 := by
    simpa [List.length_eq_zero] using hne
  have hset : sel.set_ids (pid : Int) (c.map toInt32)
      = .ok { sel with ids := sel.ids.set pid ((c.map toInt32).map toInt32) } := by
    simp [GVSelection.set_ids, pyIdx_natCast _ _ hpid]
  have hmap : (c.map toInt32).map toInt32 = c.map toInt32 := by
    simp only [List.map_map, Function.comp]
    exact List.map_congr_left (fun a _ => toInt32_toInt32 a)
  rw [hmap] at hset
  simp [parseCat, h1, hne', h2, hset]

theorem set_append_length {α : Type} (as bs : List α) (v : α) :
    (as ++ bs).set as.length v = as ++ bs.set 0 v := by
  induction as with
  | nil => rfl
  | cons a as ih => simp [List.set_cons_succ, ih]

/-- The category loop starting at slot `pre.length` over the encoded blocks
of `cats` fills the remaining (empty) slots with the id arrays of `cats`,
wrapped to int32, and stops exactly at `rest`. -/
theorem parseCats_spec (cats pre : List (List Int)) (nm : List Nat)
    (rest : List Nat) (hlen : pre.length + cats.length = _NUM_PTYPES)
    (hwf : ∀ c ∈ cats, c.length < 2 ^ 29) :
    parseCats (List.range' pre.length cats.length)
        ⟨nm, pre ++ List.replicate cats.length []⟩
        ((cats.map catBytes).flatten ++ rest)
      = .ok (⟨nm, pre ++ cats.map (List.map toInt32)⟩, rest) := by
  induction cats generalizing pre with
  | nil => simp [parseCats]
  | cons c cs ih =>
    simp only [List.length_cons] at hlen
    simp only [List.length_cons]
    rw [List.range'_succ]
    simp only [List.map_cons, List.flatten_cons, List.append_assoc]
    by_cases hc : c = []
    · subst hc
      rw [catBytes, if_pos rfl]
      show parseCats _ _ (intRecord [0] ++ _) = _
      rw [parseCats, parseCat_empty]
      have hpre : (⟨nm, pre ++ List.replicate (cs.length + 1) []⟩ : GVSelection)
          = ⟨nm, (pre ++ [[]]) ++ List.replicate cs.length []⟩ := by
        simp [List.replicate_succ]
      rw [hpre]
      have h' := ih (pre ++ [[]]) (by simp; omega) (fun d hd => hwf d (by simp [hd]))
      simpa [List.append_assoc] using h'
    · rw [catBytes, if_neg hc]
      rw [List.append_assoc]
      show parseCats _ _ (intRecord [(c.length : Int)] ++ (intRecord c ++ _)) = _
      rw [parseCats, parseCat_data _ _ _ _ (by simp) hc (hwf c (by simp))]
      have hset : (pre ++ List.replicate (c :: cs).length ([] : List Int)).set
            pre.length (c.map toInt32)
          = (pre ++ [c.map toInt32]) ++ List.replicate cs.length [] := by
        rw [set_append_length]
        simp [List.replicate_succ]
      simp only [hset]
      have h' := ih (pre ++ [c.map toInt32]) (by simp; omega)
        (fun d hd => hwf d (by simp [hd]))
      simpa [List.append_assoc] using h'

theorem mk0_of_stored (nm : List Nat) (hlen : nm.length = _NAME_LENGTH)
    (hascii : ∀ b ∈ nm, b < 128) :
    GVSelection.mk0 nm = .ok ⟨nm, List.replicate _NUM_PTYPES []⟩ := by
  have hall : nm.all (fun b => decide (b < 128)) = true :=
    List.all_eq_true.mpr (fun b hb => decide_eq_true (hascii b hb))
  have htake : nm.take _NAME_LENGTH = nm :=
    List.take_of_length_le (le_of_eq hlen)
  unfold GVSelection.mk0 GVSelection.name_set
  rw [if_pos hall]
  simp [htake, hlen]

/-- Decoding the encoded block of a well-formed selection onto a freshly
constructed selection with the same stored name reproduces the selection
exactly and consumes exactly the block. -/
theorem parseOneSel_spec (s : GVSelection) (rest : List Nat) (hwf : selWF s) :
    parseOneSel ⟨s.name, List.replicate _NUM_PTYPES []⟩
        (serInts s.make_output ++ rest)
      = .ok (s, rest) := by
  obtain ⟨-, -, hids, hsmall, hrange⟩ := hwf
  have hmap : s.ids.map (List.map toInt32) = s.ids :=
    List.map_congr_left (fun c hc => map_toInt32_eq_self (hrange c hc)) |>.trans
      (List.map_id s.ids)
  rw [serInts_make_output]
  by_cases hA : s.ids.all (fun a => a.length = 0)
  · rw [if_pos hA]
    have hrep : s.ids = List.replicate _NUM_PTYPES [] :=
      List.eq_replicate_iff.mpr ⟨hids, fun b hb =>
        List.length_eq_zero.mp (of_decide_eq_true (List.all_eq_true.mp hA b hb))⟩
    have hframe : readRecord
        (frameB (serInts [1, ((_NUM_PTYPES : Nat) : Int)])
          ++ ((List.replicate _NUM_PTYPES (intRecord [0])).flatten ++ rest))
        = .ok (serInts [1, ((_NUM_PTYPES : Nat) : Int)],
            (List.replicate _NUM_PTYPES (intRecord [0])).flatten ++ rest) :=
      readRecord_frame _ _ (by norm_num [length_serInts])
    have hcats := parseCats_spec (List.replicate _NUM_PTYPES []) [] s.name rest
      (by simp) (by simp)
    have hcb : catBytes ([] : List Int) = intRecord [0] := rfl
    simp only [List.length_nil, List.length_replicate, List.nil_append,
      List.map_replicate, hcb, List.map_nil] at hcats
    simp only [parseOneSel, List.append_assoc, hframe, List.range_eq_range',
      List.length_replicate]
    rw [hcats, ← hrep]
  · rw [if_neg hA]
    have hframe : readRecord
        (frameB (serInts [0, ((_NUM_PTYPES : Nat) : Int)])
          ++ ((s.ids.map catBytes).flatten ++ rest))
        = .ok (serInts [0, ((_NUM_PTYPES : Nat) : Int)],
            (s.ids.map catBytes).flatten ++ rest) :=
      readRecord_frame _ _ (by norm_num [length_serInts])
    have hcats := parseCats_spec s.ids [] s.name rest (by simp [hids]) hsmall
    simp only [List.length_nil, List.nil_append] at hcats
    rw [hids] at hcats
    simp only [parseOneSel, List.append_assoc, hframe, List.range_eq_range']
    rw [hcats, hmap]

/-- The outer decode loop over freshly constructed selections and the
concatenated encoded blocks reproduces the selection list. -/
theorem parseSels_spec (sels : List GVSelection) (rest : List Nat)
    (hwf : ∀ s ∈ sels, selWF s) :
    parseSels (sels.map (fun s => ⟨s.name, List.replicate _NUM_PTYPES []⟩))
        (((sels.map (fun s => serInts s.make_output)).flatten) ++ rest)
      = .ok sels := by
  induction sels generalizing rest with
  | nil => rfl
  | cons s ss ih =>
    simp only [List.map_cons, List.flatten_cons, List.append_assoc]
    simp only [parseSels, parseOneSel_spec s _ (hwf s (by simp)),
      ih rest (fun t ht => hwf t (by simp [ht]))]

/-! ## File-level lemmas -/

theorem range_map_getD {α : Type} (ls : List α) (d : α) (n : Nat)
    (h : ls.length = n) :
    (List.range n).map (fun i => ls.getD i d) = ls := by
  apply List.ext_getElem (by simp [h])
  intro i h1 h2
  simp only [List.getElem_map, List.getElem_range]
  exact List.getD_eq_getElem ls d h2

theorem serInts_flatten (ls : List (List Int)) :
    serInts ls.flatten = (ls.map serInts).flatten := by
  induction ls with
  | nil => rfl
  | cons a as ih => simp [serInts_append, ih]

theorem flatten_slices (ls : List (List Nat))
    (h : ∀ l ∈ ls, l.length = _NAME_LENGTH) (i : Nat) (hi : i < ls.length) :
    ((ls.flatten).drop (_NAME_LENGTH * i)).take _NAME_LENGTH = ls.getD i [] := by
  induction ls generalizing i with
  | nil => simp at hi
  | cons a as ih =>
    have ha := h a (by simp)
    cases i with
    | zero =>
      simp only [Nat.mul_zero, List.drop_zero, List.flatten_cons]
      rw [List.take_left' ha]
      rfl
    | succ n =>
      rw [show _NAME_LENGTH * (n + 1) = _NAME_LENGTH + _NAME_LENGTH * n by ring]
      rw [List.flatten_cons, ← List.drop_drop, List.drop_left' ha]
      rw [ih (fun l hl => h l (by simp [hl])) n (by simpa using hi)]
      rfl

theorem name_table_length (sels : List GVSelection)
    (h6 : sels.length = _NUM_SELECTIONS)
    (hn : ∀ s ∈ sels, s.name.length = _NAME_LENGTH) :
    ((sels.map (fun s => s.name)).flatten).length
      = _NUM_SELECTIONS * _NAME_LENGTH := by
  rw [List.length_flatten, List.map_map]
  have h : sels.map (List.length ∘ fun s => s.name)
      = List.replicate _NUM_SELECTIONS _NAME_LENGTH :=
    List.eq_replicate_iff.mpr ⟨by simp [h6], by
      intro b hb
      simp only [List.mem_map, Function.comp] at hb
      obtain ⟨s, hs, rfl⟩ := hb
      exact hn s hs⟩
  rw [h, List.sum_replicate, smul_eq_mul]

theorem mkSels_ok (sels : List GVSelection)
    (hn : ∀ s ∈ sels, s.name.length = _NAME_LENGTH)
    (hascii : ∀ s ∈ sels, ∀ b ∈ s.name, b < 128) :
    mkSels (sels.map (fun s => s.name))
      = .ok (sels.map (fun s => ⟨s.name, List.replicate _NUM_PTYPES []⟩)) := by
  induction sels with
  | nil => rfl
  | cons s ss ih =>
    simp only [List.map_cons, mkSels]
    rw [mk0_of_stored _ (hn s (by simp)) (hascii s (by simp))]
    rw [ih (fun t ht => hn t (by simp [ht])) (fun t ht => hascii t (by simp [ht]))]

theorem write_file_shape (sels : List GVSelection)
    (h6 : sels.length = _NUM_SELECTIONS)
    (hn : ∀ s ∈ sels, s.name.length = _NAME_LENGTH) :
    GVSelectFile.write_file sels
      = frameB (int32le ((_NUM_SELECTIONS : Nat) : Int))
        ++ (frameB ((sels.map (fun s => s.name)).flatten)
        ++ (((sels.map (fun s => serInts s.make_output)).flatten) ++ [])) := by
  have hmap1 : (List.range _NUM_SELECTIONS).map (fun i => (sels.getD i default).name)
      = sels.map (fun s => s.name) := by
    rw [show (fun i => (sels.getD i default).name)
        = (fun s => s.name) ∘ (fun i => sels.getD i default) from rfl]
    rw [← List.map_map, range_map_getD sels default _ h6]
  have hmap2 : (List.range _NUM_SELECTIONS).map
        (fun i => (sels.getD i default).make_output)
      = sels.map GVSelection.make_output := by
    rw [show (fun i => (sels.getD i default).make_output)
        = GVSelection.make_output ∘ (fun i => sels.getD i default) from rfl]
    rw [← List.map_map, range_map_getD sels default _ h6]
  have hTlen : ((sels.map (fun s => s.name)).flatten).length
      = _NUM_SELECTIONS * _NAME_LENGTH := name_table_length sels h6 hn
  simp only [GVSelectFile.write_file, hmap1, hmap2, frameB, hTlen,
    length_int32le, serInts_flatten, List.map_map]
  simp [List.append_assoc]
  rfl

/-- Claim C1. Round-trip: for a `GVSelectFile` holding 6 selections whose
stored names are the 500-byte space-padded ASCII names the setter produces
and whose id sequences hold int32 values (with per-category byte counts
that fit an int32), parsing the bytes written by `write_file` reproduces
the selections exactly: every category's id sequence and every stored
(space-padded) name comes back unchanged. -/
theorem c1_write_parse_roundtrip (sels : List GVSelection)
    (h6 : sels.length = _NUM_SELECTIONS) (hwf : ∀ s ∈ sels, selWF s) :
    GVSelectFile._parse_file (GVSelectFile.write_file sels) = .ok sels := by
  have hn : ∀ s ∈ sels, s.name.length = _NAME_LENGTH := fun s hs => (hwf s hs).1
  have hascii : ∀ s ∈ sels, ∀ b ∈ s.name, b < 128 := fun s hs => (hwf s hs).2.1
  have hTlen : ((sels.map (fun s => s.name)).flatten).length
      = _NUM_SELECTIONS * _NAME_LENGTH := name_table_length sels h6 hn
  rw [write_file_shape sels h6 hn]
  have h1 : readRecord (frameB (int32le ((_NUM_SELECTIONS : Nat) : Int))
        ++ (frameB ((sels.map (fun s => s.name)).flatten)
          ++ (((sels.map (fun s => serInts s.make_output)).flatten) ++ [])))
      = .ok (int32le ((_NUM_SELECTIONS : Nat) : Int),
          frameB ((sels.map (fun s => s.name)).flatten)
            ++ (((sels.map (fun s => serInts s.make_output)).flatten) ++ [])) :=
    readRecord_frame _ _ (by norm_num [length_int32le])
  have h2 : readRecord (frameB ((sels.map (fun s => s.name)).flatten)
        ++ (((sels.map (fun s => serInts s.make_output)).flatten) ++ []))
      = .ok ((sels.map (fun s => s.name)).flatten,
          ((sels.map (fun s => serInts s.make_output)).flatten) ++ []) :=
    readRecord_frame _ _ (by rw [hTlen]; decide)
  have hnames : (List.range _NUM_SELECTIONS).map
        (fun i => (((sels.map (fun s => s.name)).flatten).drop
          (_NAME_LENGTH * i)).take _NAME_LENGTH)
      = sels.map (fun s => s.name) := by
    have hsl : ∀ i ∈ List.range _NUM_SELECTIONS,
        (((sels.map (fun s => s.name)).flatten).drop
          (_NAME_LENGTH * i)).take _NAME_LENGTH
        = (sels.map (fun s => s.name)).getD i [] := by
      intro i hi
      refine flatten_slices _ ?_ i (by simp [h6, List.mem_range.mp hi])
      intro l hl
      simp only [List.mem_map] at hl
      obtain ⟨s, hs, rfl⟩ := hl
      exact hn s hs
    rw [List.map_congr_left hsl, range_map_getD _ _ _ (by simp [h6])]
  simp only [GVSelectFile._parse_file, h1, h2, hnames,
    mkSels_ok sels hn hascii]
  exact parseSels_spec sels [] hwf

/-! ## Index and name-validation lemmas -/

theorem pyIdx_pos (len : Nat) (i : Int) (h1 : 0 ≤ i) (h2 : i < (len : Int)) :
    pyIdx len i = some i.toNat := by
  unfold pyIdx
  rw [if_pos ⟨h1, h2⟩]

theorem pyIdx_neg (len : Nat) (i : Int) (h1 : -(len : Int) ≤ i) (h2 : i < 0) :
    pyIdx len i = some ((len : Int) + i).toNat := by
  unfold pyIdx
  rw [if_neg (by omega), if_pos ⟨h1, h2⟩]

theorem pyIdx_none (len : Nat) (i : Int)
    (h : i < -(len : Int) ∨ (len : Int) ≤ i) : pyIdx len i = none := by
  unfold pyIdx
  rw [if_neg (by omega), if_neg (by omega)]

theorem mk0_ok_of_ascii (nm : List Nat) (h : ∀ b ∈ nm, b < 128) :
    ∃ s, GVSelection.mk0 nm = .ok s := by
  unfold GVSelection.mk0 GVSelection.name_set
  rw [if_pos (List.all_eq_true.mpr (fun b hb => decide_eq_true (h b hb)))]
  exact ⟨_, rfl⟩

theorem mk0_fail_of_non_ascii (nm : List Nat) (h : ∃ b ∈ nm, 128 ≤ b) :
    GVSelection.mk0 nm = .error .invalidName := by
  obtain ⟨b, hb, h128⟩ := h
  unfold GVSelection.mk0 GVSelection.name_set
  rw [if_neg]
  intro hall
  have := of_decide_eq_true (List.all_eq_true.mp hall b hb)
  omega

/-- If any name in the list contains a non-ASCII byte, constructing the
selection objects fails with the name-validation error (the constructor
assigns the name through the validating setter). -/
theorem mkSels_fail (names : List (List Nat))
    (h : ∃ nm ∈ names, ∃ b ∈ nm, 128 ≤ b) :
    mkSels names = .error .invalidName := by
  induction names with
  | nil => simp at h
  | cons nm ns ih =>
    by_cases hnm : ∀ b ∈ nm, b < 128
    · obtain ⟨s, hs⟩ := mk0_ok_of_ascii nm hnm
      have htail : ∃ nm' ∈ ns, ∃ b ∈ nm', 128 ≤ b := by
        obtain ⟨nm', hmem, b, hb, h128⟩ := h
        rcases List.mem_cons.mp hmem with heq | hmem'
        · subst heq
          exact absurd (hnm b hb) (by omega)
        · exact ⟨nm', hmem', b, hb, h128⟩
      simp [mkSels, hs, ih htail]
    · push_neg at hnm
      have hf := mk0_fail_of_non_ascii nm
        (by obtain ⟨b, hb, h'⟩ := hnm; exact ⟨b, hb, by omega⟩)
      simp [mkSels, hf]

/-- Every byte of a full 3000-byte name table lies in one of the six
500-byte name slices. -/
theorem mem_slice_of_mem (l : List Nat)
    (hl : l.length = _NUM_SELECTIONS * _NAME_LENGTH) (b : Nat) (hb : b ∈ l) :
    ∃ i ∈ List.range _NUM_SELECTIONS,
      b ∈ (l.drop (_NAME_LENGTH * i)).take _NAME_LENGTH := by
  have h500 : _NAME_LENGTH = 500 := rfl
  have h6 : _NUM_SELECTIONS = 6 := rfl
  obtain ⟨p, hp, hpe⟩ := List.mem_iff_getElem.mp hb
  rw [hl, h500, h6] at hp
  refine ⟨p / 500, List.mem_range.mpr (by rw [h6]; omega), ?_⟩
  rw [h500]
  have hlen_take : p % 500 < ((l.drop (500 * (p / 500))).take 500).length := by
    simp only [List.length_take, List.length_drop, hl, h500, h6]
    omega
  refine List.mem_iff_getElem.mpr ⟨p % 500, hlen_take, ?_⟩
  simp only [List.getElem_take, List.getElem_drop, Nat.div_add_mod]
  exact hpe

theorem write_names_map (sels : List GVSelection)
    (h6 : sels.length = _NUM_SELECTIONS) :
    (List.range _NUM_SELECTIONS).map (fun i => (sels.getD i default).name)
      = sels.map (fun s => s.name) := by
  rw [show (fun i => (sels.getD i default).name)
      = (fun s => s.name) ∘ (fun i => sels.getD i default) from rfl]
  rw [← List.map_map, range_map_getD sels default _ h6]

theorem write_body_map (sels : List GVSelection)
    (h6 : sels.length = _NUM_SELECTIONS) :
    (List.range _NUM_SELECTIONS).map (fun i => (sels.getD i default).make_output)
      = sels.map GVSelection.make_output := by
  rw [show (fun i => (sels.getD i default).make_output)
      = GVSelection.make_output ∘ (fun i => sels.getD i default) from rfl]
  rw [← List.map_map, range_map_getD sels default _ h6]

/-! ## Claim theorems -/

/-- Claim C10. Decoding an input whose framing is intact up to the name table
but whose 3000-byte name table contains a non-ASCII byte fails with the
name-validation error `invalidName` (the same error the name setter
raises), not with a structural/framing error: every parsed name slice is
assigned through the validating setter when the `GVSelection` objects are
constructed. -/
theorem c10_non_ascii_name_decode (p1 nameTable rest : List Nat)
    (hp1 : p1.length < 2 ^ 31)
    (hnt : nameTable.length = _NUM_SELECTIONS * _NAME_LENGTH)
    (hbad : ∃ b ∈ nameTable, 128 ≤ b) :
    GVSelectFile._parse_file (frameB p1 ++ (frameB nameTable ++ rest))
      = .error .invalidName := by
  have h1 := readRecord_frame p1 (frameB nameTable ++ rest) hp1
  have h2 := readRecord_frame nameTable rest (by rw [hnt]; decide)
  obtain ⟨b, hb, h128⟩ := hbad
  obtain ⟨i, hi, hbi⟩ := mem_slice_of_mem nameTable hnt b hb
  have hfail := mkSels_fail ((List.range _NUM_SELECTIONS).map
      (fun j => (nameTable.drop (_NAME_LENGTH * j)).take _NAME_LENGTH))
    ⟨_, List.mem_map_of_mem _ hi, b, hbi, h128⟩
  simp only [GVSelectFile._parse_file, h1, h2, hfail]

theorem badTable_length : badTable.length = _NUM_SELECTIONS * _NAME_LENGTH := by
  unfold badTable
  rw [List.length_cons, List.length_replicate]
  decide

theorem badTable_non_ascii : ∃ b ∈ badTable, 128 ≤ b :=
  ⟨200, by unfold badTable; exact List.mem_cons_self 200 _, by norm_num⟩

/-- Witness for C10 at a concrete malformed input. -/
theorem c10_witness :
    (([] : List Nat).length < 2 ^ 31
      ∧ badTable.length = _NUM_SELECTIONS * _NAME_LENGTH
      ∧ ∃ b ∈ badTable, 128 ≤ b)
    ∧ GVSelectFile._parse_file (frameB [] ++ (frameB badTable ++ []))
        = .error .invalidName :=
  ⟨⟨by decide, badTable_length, badTable_non_ascii⟩,
    c10_non_ascii_name_decode [] badTable [] (by decide)
      badTable_length badTable_non_ascii⟩

/-- Witness for C1 at a concrete file (one mixed selection, five empty). -/
theorem c1_witness :
    sampleFile.length = _NUM_SELECTIONS
    ∧ (∀ s ∈ sampleFile, selWF s)
    ∧ GVSelectFile._parse_file (GVSelectFile.write_file sampleFile)
        = .ok sampleFile :=
  ⟨by decide, by decide,
    c1_write_parse_roundtrip sampleFile (by decide) (by decide)⟩

/-- Claim C2, counterexample. At a stream holding the count record `{3}`
followed by the data record `{10, 20, 30}`, the decoder's category step
stores `[10, 20, 30]` — the *second* record — into the category, and
consumes both records, contradicting the claim that the single record read
(`[3]`) is itself stored verbatim with no further record consumed. -/
theorem c2_counterexample :
    parseCat 0 sampleSelE (intRecord [3] ++ intRecord [10, 20, 30])
        = .ok (⟨List.replicate 500 32, [[10, 20, 30], [], [], [], [], []]⟩, [])
      ∧ ([10, 20, 30] : List Int) ≠ [3] := by
  exact ⟨rfl, by decide⟩

/-- Claim C2, amended. During decode, for each category the loop reads one
integer-array record (the count record); if its first element is nonzero
it reads a *second* integer-array record and stores that second record
(wrapped to int32) verbatim as the category's id sequence; if the first
element is zero, no further record is consumed and the selection is left
unchanged. -/
theorem c2_amended_category_decode (sel : GVSelection) (pid : Nat)
    (ids xs : List Int) (x : Int) (rest rest' : List Nat)
    (hpid : pid < sel.ids.length) (hne : ids ≠ [])
    (hlen : ids.length < 2 ^ 29) (hx : toInt32 x = 0)
    (hxlen : 4 * (xs.length + 1) < 2 ^ 31) :
    parseCat pid sel (intRecord [(ids.length : Int)] ++ (intRecord ids ++ rest))
        = .ok ({ sel with ids := sel.ids.set pid (ids.map toInt32) }, rest)
      ∧ parseCat pid sel (intRecord (x :: xs) ++ rest') = .ok (sel, rest') := by
  refine ⟨parseCat_data pid sel ids rest hpid hne hlen, ?_⟩
  have h := readInts_frame (x :: xs) rest' (by simpa using hxlen)
  simp only [List.map_cons, hx] at h
  simp [parseCat, h]

/-- Witness for the amended C2 at concrete records. -/
theorem c2_witness :
    (2 < sampleSelE.ids.length
      ∧ ([10, 20, 30] : List Int) ≠ []
      ∧ ([10, 20, 30] : List Int).length < 2 ^ 29
      ∧ toInt32 0 = 0
      ∧ 4 * (([] : List Int).length + 1) < 2 ^ 31)
    ∧ (parseCat 2 sampleSelE
          (intRecord [(([10, 20, 30] : List Int).length : Int)]
            ++ (intRecord [10, 20, 30] ++ []))
        = .ok ({ sampleSelE with
            ids := sampleSelE.ids.set 2 (([10, 20, 30] : List Int).map toInt32) },
            [])
      ∧ parseCat 2 sampleSelE (intRecord (0 :: []) ++ []) = .ok (sampleSelE, [])) :=
  ⟨⟨by decide, by decide, by decide, by decide, by decide⟩,
    c2_amended_category_decode sampleSelE 2 [10, 20, 30] [] 0 [] []
      (by decide) (by decide) (by decide) (by decide) (by decide)⟩

/-- Claim C3. A selection whose category 2 holds `[10, 20, 30]` and whose
other five categories are empty encodes, as 4-byte integers, to
`[8,0,6,8]` followed in category order by `[4,0,4]`, `[4,0,4]`,
`[4,3,4,12,10,20,30,12]`, `[4,0,4]`, `[4,0,4]`, `[4,0,4]`. -/
theorem c3_mixed_selection_block (s : GVSelection)
    (h : s.ids = [[], [], [10, 20, 30], [], [], []]) :
    s.make_output
      = [8, 0, 6, 8] ++ [4, 0, 4] ++ [4, 0, 4]
        ++ [4, 3, 4, 12, 10, 20, 30, 12]
        ++ [4, 0, 4] ++ [4, 0, 4] ++ [4, 0, 4] := by
  obtain ⟨nm, ids⟩ := s
  change ids = _ at h
  subst h
  rfl

/-- Witness for C3 at a concrete selection. -/
theorem c3_witness :
    sampleSel1.ids = [[], [], [10, 20, 30], [], [], []]
    ∧ sampleSel1.make_output
      = [8, 0, 6, 8] ++ [4, 0, 4] ++ [4, 0, 4]
        ++ [4, 3, 4, 12, 10, 20, 30, 12]
        ++ [4, 0, 4] ++ [4, 0, 4] ++ [4, 0, 4] :=
  ⟨rfl, c3_mixed_selection_block sampleSel1 rfl⟩

/-- Claim C4. A selection all six of whose category id sequences are empty
encodes to exactly the fixed block
`[8,1,6,8, 4,0,4, 4,0,4, 4,0,4, 4,0,4, 4,0,4, 4,0,4]` (4-byte integers). -/
theorem c4_all_empty_block (s : GVSelection) (h6 : s.ids.length = 6)
    (hemp : ∀ c ∈ s.ids, c = []) :
    s.make_output
      = [8, 1, 6, 8, 4, 0, 4, 4, 0, 4, 4, 0, 4, 4, 0, 4, 4, 0, 4, 4, 0, 4] := by
  have hrep : s.ids = List.replicate 6 [] := List.eq_replicate_iff.mpr ⟨h6, hemp⟩
  obtain ⟨nm, ids⟩ := s
  change ids = _ at hrep
  subst hrep
  rfl

/-- Witness for C4 at a concrete all-empty selection. -/
theorem c4_witness :
    sampleSelE.ids.length = 6 ∧ (∀ c ∈ sampleSelE.ids, c = [])
    ∧ sampleSelE.make_output
      = [8, 1, 6, 8, 4, 0, 4, 4, 0, 4, 4, 0, 4, 4, 0, 4, 4, 0, 4, 4, 0, 4] :=
  ⟨by decide, by decide, c4_all_empty_block sampleSelE (by decide) (by decide)⟩

/-- Claim C5, counterexample. The leading self-framed record of the
all-empty block has body `{1, 6}`, not `{6, 4}`: the claimed byte pattern
`[8] ++ [6, 4] ++ [8] ++ 6 × [4, 0, 4]` differs from what the encoder
emits for a concrete all-empty selection. -/
theorem c5_counterexample :
    GVSelection.make_output sampleSelE
      ≠ [8] ++ [6, 4] ++ [8] ++ (List.replicate 6 [4, 0, 4]).flatten := by
  decide

/-- Claim C5, amended. For a selection all of whose categories are empty,
the encoder emits an all-empty block whose leading self-framed record has
body `{1, 6}` (flag 1 = all empty, then the category count 6) preceded and
followed by the record length 8, followed by 6 repetitions of the
empty-category marker block `{4, 0, 4}`. -/
theorem c5_amended_all_empty_framing (s : GVSelection)
    (h6 : s.ids.length = 6) (hemp : ∀ c ∈ s.ids, c = []) :
    s.make_output
      = [8] ++ [1, 6] ++ [8] ++ (List.replicate 6 [4, 0, 4]).flatten := by
  have hrep : s.ids = List.replicate 6 [] := List.eq_replicate_iff.mpr ⟨h6, hemp⟩
  obtain ⟨nm, ids⟩ := s
  change ids = _ at hrep
  subst hrep
  rfl

/-- Witness for the amended C5 at a concrete all-empty selection. -/
theorem c5_witness :
    sampleSelE.ids.length = 6 ∧ (∀ c ∈ sampleSelE.ids, c = [])
    ∧ sampleSelE.make_output
      = [8] ++ [1, 6] ++ [8] ++ (List.replicate 6 [4, 0, 4]).flatten :=
  ⟨by decide, by decide,
    c5_amended_all_empty_framing sampleSelE (by decide) (by decide)⟩

/-- Claim C6. For any ASCII byte string assigned through the name setter:
the assignment succeeds, the stored name is exactly 500 bytes; a name
longer than 500 is cut to exactly its first 500 bytes, and a name of at
most 500 bytes is right-padded with spaces to 500. -/
theorem c6_name_truncation (s : GVSelection) (nm : List Nat)
    (hascii : ∀ b ∈ nm, b < 128) :
    (s.name_set nm).1.name.length = 500
    ∧ (s.name_set nm).2 = none
    ∧ (500 < nm.length → (s.name_set nm).1.name = nm.take 500)
    ∧ (nm.length ≤ 500 →
        (s.name_set nm).1.name = nm ++ List.replicate (500 - nm.length) 32) := by
  have hall : nm.all (fun b => decide (b < 128)) = true :=
    List.all_eq_true.mpr (fun b hb => decide_eq_true (hascii b hb))
  have hset : s.name_set nm
      = ({ s with
          name := nm.take 500 ++ List.replicate (500 - (nm.take 500).length) 32 },
        none) := by
    unfold GVSelection.name_set
    rw [if_pos hall]
    rfl
  rw [hset]
  refine ⟨?_, rfl, ?_, ?_⟩
  · simp only [List.length_append, List.length_take, List.length_replicate]
    omega
  · intro h
    have ht : (nm.take 500).length = 500 := by
      rw [List.length_take]
      omega
    rw [ht]
    simp
  · intro h
    rw [List.take_of_length_le h]

/-- Witness for C6 at concrete short and long names. -/
theorem c6_witness :
    (∀ b ∈ [72, 105], b < 128)
    ∧ (sampleSelE.name_set [72, 105]).1.name.length = 500
    ∧ (sampleSelE.name_set [72, 105]).2 = none
    ∧ (([72, 105] : List Nat).length ≤ 500 →
        (sampleSelE.name_set [72, 105]).1.name
          = [72, 105] ++ List.replicate (500 - ([72, 105] : List Nat).length) 32) :=
  ⟨by decide,
    (c6_name_truncation sampleSelE [72, 105] (by decide)).1,
    (c6_name_truncation sampleSelE [72, 105] (by decide)).2.1,
    (c6_name_truncation sampleSelE [72, 105] (by decide)).2.2.2⟩

/-- Claim C7. Assigning a byte string containing a non-ASCII byte through the
name setter fails with the name-validation error and returns the selection
unchanged (the `ValueError` is raised before `_name` is assigned). -/
theorem c7_non_ascii_rejected (s : GVSelection) (nm : List Nat)
    (h : ∃ b ∈ nm, 128 ≤ b) :
    s.name_set nm = (s, some .invalidName) := by
  obtain ⟨b, hb, h128⟩ := h
  unfold GVSelection.name_set
  rw [if_neg]
  intro hall
  have := of_decide_eq_true (List.all_eq_true.mp hall b hb)
  omega

/-- Witness for C7 at a concrete non-ASCII name. -/
theorem c7_witness :
    (∃ b ∈ [200, 65], 128 ≤ b)
    ∧ sampleSel1.name_set [200, 65] = (sampleSel1, some .invalidName) :=
  ⟨⟨200, by decide, by decide⟩,
    c7_non_ascii_rejected sampleSel1 [200, 65] ⟨200, by decide, by decide⟩⟩

/-- Claim C8. For a file of 6 selections with 500-byte stored names, the
encoded output is exactly the four int32 header fields `4, 6, 4, 3000`,
then the 3000-byte concatenated name table (the six 500-byte names in
selection order), then a trailing int32 equal to `3000`, then the body. -/
theorem c8_header_layout (sels : List GVSelection)
    (h6 : sels.length = _NUM_SELECTIONS)
    (hn : ∀ s ∈ sels, s.name.length = _NAME_LENGTH) :
    GVSelectFile.write_file sels
      = int32le 4 ++ int32le 6 ++ int32le 4 ++ int32le 3000
        ++ (sels.map (fun s => s.name)).flatten ++ int32le 3000
        ++ serInts ((sels.map GVSelection.make_output).flatten)
    ∧ ((sels.map (fun s => s.name)).flatten).length = 3000 := by
  refine ⟨?_, (name_table_length sels h6 hn).trans (by decide)⟩
  simp only [GVSelectFile.write_file, write_names_map sels h6,
    write_body_map sels h6]
  rfl

/-- Witness for C8 at a concrete file. -/
theorem c8_witness :
    sampleFile.length = _NUM_SELECTIONS
    ∧ (∀ s ∈ sampleFile, s.name.length = _NAME_LENGTH)
    ∧ ((sampleFile.map (fun s => s.name)).flatten).length = 3000
    ∧ GVSelectFile.write_file sampleFile
      = int32le 4 ++ int32le 6 ++ int32le 4 ++ int32le 3000
        ++ (sampleFile.map (fun s => s.name)).flatten ++ int32le 3000
        ++ serInts ((sampleFile.map GVSelection.make_output).flatten) :=
  ⟨by decide, by decide,
    (c8_header_layout sampleFile (by decide) (by decide)).2,
    (c8_header_layout sampleFile (by decide) (by decide)).1⟩

/-- Claim C9, counterexample. The front-end accessor does *not* reject every
index outside `0..5`: the negative index `-1` succeeds (Python negative
indexing reads the last slot) instead of failing with an out-of-range
error. -/
theorem c9_counterexample :
    ((-1 : Int) < 0 ∨ 5 < (-1 : Int))
    ∧ GVSelectFile.get_ids sampleFile (-1) 0 = .ok [] :=
  ⟨Or.inl (by decide), rfl⟩

/-- Claim C9, amended. For a file of 6 selections each holding 6 category
slots: a selection index below `-6` or at least `6` fails with the
index-out-of-range error from `get_ids` and `set_ids`; with a valid
selection index, a category index below `-6` or at least `6` likewise
fails; but a negative selection index `-6 ≤ i < 0` does not fail — it
accesses the slot `i + 6`, per Python list-index semantics. -/
theorem c9_amended_index_bounds (sels : List GVSelection)
    (h6 : sels.length = _NUM_SELECTIONS)
    (hids : ∀ s ∈ sels, s.ids.length = _NUM_PTYPES)
    (i j : Int) (ids : List Int) :
    ((i < -6 ∨ 6 ≤ i) →
      GVSelectFile.get_ids sels i j = .error .indexError
        ∧ GVSelectFile.set_ids sels i j ids = .error .indexError)
    ∧ ((-6 ≤ i ∧ i < 6) → (j < -6 ∨ 6 ≤ j) →
      GVSelectFile.get_ids sels i j = .error .indexError
        ∧ GVSelectFile.set_ids sels i j ids = .error .indexError)
    ∧ ((-6 ≤ i ∧ i < 0) →
      GVSelectFile.get_ids sels i j = GVSelectFile.get_ids sels (i + 6) j) := by
  have h6' : (sels.length : Int) = 6 := by rw [h6]; rfl
  refine ⟨?_, ?_, ?_⟩
  · intro hi
    have hnone : pyIdx sels.length i = none := pyIdx_none _ _ (by omega)
    constructor
    · simp [GVSelectFile.get_ids, hnone]
    · simp [GVSelectFile.set_ids, hnone]
  · intro hi hj
    obtain ⟨k, hk, hklt⟩ : ∃ k, pyIdx sels.length i = some k ∧ k < sels.length := by
      by_cases h0 : 0 ≤ i
      · exact ⟨i.toNat, pyIdx_pos _ _ h0 (by omega), by omega⟩
      · exact ⟨((sels.length : Int) + i).toNat,
          pyIdx_neg _ _ (by omega) (by omega), by omega⟩
    have hmem : sels.getD k default ∈ sels := by
      rw [List.getD_eq_getElem sels default hklt]
      exact List.getElem_mem hklt
    have h6p : ((sels.getD k default).ids.length : Int) = 6 := by
      rw [hids _ hmem]
      rfl
    have hjnone : pyIdx (sels.getD k default).ids.length j = none :=
      pyIdx_none _ _ (by omega)
    have hjnone' : pyIdx (sels[k]?.getD default).ids.length j = none := by
      rw [← List.getD_eq_getElem?_getD]
      exact hjnone
    constructor
    · simp [GVSelectFile.get_ids, hk, GVSelection.get_ids, hjnone']
    · simp [GVSelectFile.set_ids, hk, GVSelection.set_ids, hjnone']
  · intro hi
    have e1 : pyIdx sels.length i = some ((sels.length : Int) + i).toNat :=
      pyIdx_neg _ _ (by omega) (by omega)
    have e2 : pyIdx sels.length (i + 6) = some (i + 6).toNat :=
      pyIdx_pos _ _ (by omega) (by omega)
    have ek : ((sels.length : Int) + i).toNat = (i + 6).toNat := by omega
    simp [GVSelectFile.get_ids, e1, e2, ek]

/-- Witness for the amended C9 at concrete out-of-range and negative
indices. -/
theorem c9_witness :
    (sampleFile.length = _NUM_SELECTIONS
      ∧ (∀ s ∈ sampleFile, s.ids.length = _NUM_PTYPES)
      ∧ ((7 : Int) < -6 ∨ (6 : Int) ≤ 7)
      ∧ ((-6 : Int) ≤ -1 ∧ (-1 : Int) < 0))
    ∧ (GVSelectFile.get_ids sampleFile 7 0 = .error .indexError
        ∧ GVSelectFile.set_ids sampleFile 7 0 [1] = .error .indexError)
    ∧ GVSelectFile.get_ids sampleFile (-1) 0
        = GVSelectFile.get_ids sampleFile (-1 + 6) 0 :=
  ⟨⟨by decide, by decide, Or.inr (by decide), ⟨by decide, by decide⟩⟩,
    (c9_amended_index_bounds sampleFile (by decide) (by decide) 7 0 [1]).1
      (Or.inr (by decide)),
    (c9_amended_index_bounds sampleFile (by decide) (by decide) (-1) 0 [1]).2.2
      ⟨by decide, by decide⟩⟩
